import Mathlib

/-!
Verification of the dataset-loading and batch-collation module
(`tape_pytorch/datasets.py`) against its natural-language specification.

The Python module is shallowly embedded: each class method that a claim
refers to becomes a Lean function over explicit data.  External
collaborators (the tokenizer, the lmdb store, the fasta index) are
modelled as structures or function parameters, exactly as the spec scopes
them out.  Machine floats appear only in the contact-map derivation,
where the comparison `euclidean_distance < 8.0` is embedded exactly as
`squared_distance < 64` over the rationals (equivalent for nonnegative
reals, and exact).  Randomness (`random.random`, `random.randint`) is
embedded as explicit per-position streams of draws.
-/

/-- The tokenizer collaborator, as scoped by the spec: tokenize a string
into token strings, convert tokens to/from integer ids, and expose the
reserved cls/sep/mask tokens and the vocabulary size.  `isBPE` models the
`isinstance(tokenizer, tokenizers.BPETokenizer)` test used by the
secondary-structure dataset. -/
structure Tokenizer where
  tokenize : String → List String
  convert_token_to_id : String → Nat
  convert_id_to_token : Nat → String
  cls_token : String
  sep_token : String
  mask_token : String
  vocab_size : Nat
  isBPE : Bool

/-- `tokenizer.convert_tokens_to_ids`: elementwise id lookup over a token
list (the list form of `convert_token_to_id`, as the tokenizer interface
specifies). -/
def Tokenizer.convert_tokens_to_ids (tk : Tokenizer) (tokens : List String) : List Nat :=
  tokens.map tk.convert_token_to_id

/-- Token output of `TAPEDataset.__getitem__`: either raw token strings
(`convert_tokens_to_ids=False`) or an int64 id array. -/
inductive TokensOrIds where
  | strs (tokens : List String)
  | ids (tokenIds : List Int)
deriving DecidableEq, Repr

/-- Length of either token representation. -/
def TokensOrIds.length : TokensOrIds → Nat
  | .strs ts => ts.length
  | .ids xs => xs.length

/-- `datasets.py` line 184: the token sequence wrapped with the boundary
tokens, `[cls_token] + tokenize(primary) + [sep_token]`. -/
def TAPEDataset.tokensOf (tk : Tokenizer) (primary : String) : List String :=
  [tk.cls_token] ++ tk.tokenize primary ++ [tk.sep_token]

/-- `TAPEDataset.__getitem__` (lines 180-191), after the underlying record
has been fetched: tokenize the primary sequence, wrap with boundary
tokens, optionally convert to an int64 id array, and build the all-ones
attention mask of the resulting length. -/
def TAPEDataset.getItem (tk : Tokenizer) (convertToIds : Bool) (primary : String) :
    TokensOrIds × List Int :=
  let tokens := TAPEDataset.tokensOf tk primary
  let out := if convertToIds
    then TokensOrIds.ids ((tk.convert_tokens_to_ids tokens).map Int.ofNat)
    else TokensOrIds.strs tokens
  (out, List.replicate out.length 1)

/-- Squared Euclidean distance between two residue 3D coordinates.  The
source compares `pdist` (Euclidean) entries against `8.0`; over exact
arithmetic `dist p q < 8` iff `sqdist p q < 64`, which is the form
embedded here. -/
def sqdist (p q : ℚ × ℚ × ℚ) : ℚ :=
  (p.1 - q.1) ^ 2 + (p.2.1 - q.2.1) ^ 2 + (p.2.2 - q.2.2) ^ 2

/-- `datasets.py` line 426: the binary contact map
`np.less(squareform(pdist(tertiary)), 8.0).astype(np.int64)`, entrywise:
1 when the Euclidean distance between residues `i` and `j` is below 8.0,
else 0 (diagonal entries of `squareform(pdist(..))` are 0, matching
`sqdist` at `i = j`). -/
def ProteinnetDataset.binaryContact (tertiary : List (ℚ × ℚ × ℚ)) (i j : Nat) : Int :=
  if sqdist (tertiary.getD i (0, 0, 0)) (tertiary.getD j (0, 0, 0)) < 64 then 1 else 0

/-- `datasets.py` lines 426-427: the contact map after the masked
assignment `contact_map[~(valid_mask[:, None] & valid_mask[None, :])] = -1`:
where both residues are valid the binary contact value is kept, elsewhere
the entry is overwritten with -1. -/
def ProteinnetDataset.contactMap (tertiary : List (ℚ × ℚ × ℚ)) (valid_mask : List Bool)
    (i j : Nat) : Int :=
  if valid_mask.getD i false && valid_mask.getD j false
    then ProteinnetDataset.binaryContact tertiary i j
    else -1

/-- One iteration of the loop body in `PfamDataset._apply_bert_mask`
(lines 247-268), at a position whose `random.random()` draw is `r` and
whose `random.randint(0, vocab_size - 1)` draw (consumed only on the
random-replacement branch) is `rid`.  The source's boundary check on line
249 (`if token in (cls_token, sep_token): pass`) computes a membership
test whose body is `pass`; it is kept here as an unused binding, since it
changes nothing in the executed path.  Returns the (possibly replaced)
token together with the label written at that position (-1 when the draw
is not below 0.15). -/
def PfamDataset.bertMaskOne (tk : Tokenizer) (token : String) (r : ℚ) (rid : Nat) :
    String × Int :=
  let _boundary := token == tk.cls_token || token == tk.sep_token
  if r < 15 / 100 then
    let r2 := r / (15 / 100)
    let label : Int := tk.convert_token_to_id token
    let token2 :=
      if r2 < 8 / 10 then tk.mask_token
      else if r2 < 9 / 10 then tk.convert_id_to_token rid
      else token
    (token2, label)
  else (token, -1)

/-- The loop of `PfamDataset._apply_bert_mask` over the token list,
carrying the position index; `r i` and `rid i` are position `i`'s random
draws. -/
def PfamDataset.bertMaskFrom (tk : Tokenizer) (r : Nat → ℚ) (rid : Nat → Nat) :
    Nat → List String → List String × List Int
  | _, [] => ([], [])
  | i, t :: ts =>
    let p := PfamDataset.bertMaskOne tk t (r i) (rid i)
    let rest := PfamDataset.bertMaskFrom tk r rid (i + 1) ts
    (p.1 :: rest.1, p.2 :: rest.2)

/-- `PfamDataset._apply_bert_mask` (lines 243-270): returns the masked
token list and the int64 label array (initialized to -1 everywhere and
overwritten at positions whose draw falls below 0.15). -/
def PfamDataset.applyBertMask (tk : Tokenizer) (tokens : List String) (r : Nat → ℚ)
    (rid : Nat → Nat) : List String × List Int :=
  PfamDataset.bertMaskFrom tk r rid 0 tokens

/-- An n-dimensional numeric array, by shape and contents: `data idx` is
the entry at multi-index `idx` (meaningful when `idx` is within
`shape`). -/
structure NDArray where
  shape : List Nat
  data : List Nat → Int

/-- Whether multi-index `idx` addresses a cell of an array of shape
`shape`. -/
def NDArray.inBounds (shape idx : List Nat) : Bool :=
  idx.length == shape.length && (List.zip idx shape).all fun p => p.1 < p.2

/-- `np.max([seq.shape for seq in sequences], 0)` (line 135): the
element-wise maximum of the shapes of a nonempty list of same-rank
arrays. -/
def NDArray.maxShape : List (List Nat) → List Nat
  | [] => []
  | s :: rest => rest.foldl (fun acc t => List.zipWith max acc t) s

/-- NumPy basic-slice assignment `arr[arrslice] = seq` where `arrslice`
selects the leading sub-region of `seq`'s shape (line 139): within that
sub-region the cell takes `seq`'s value, elsewhere the previous value is
kept. -/
def NDArray.assignSlice (base : List Nat → Int) (seq : NDArray) : List Nat → Int :=
  fun idx => if NDArray.inBounds seq.shape idx then seq.data idx else base idx

/-- `PaddedBatch._pad` (lines 133-142): allocate
`np.zeros([batch_size, *max_shape]) + constant_value`, then copy each
example `k` into the leading sub-region of slice `k`.  The cell at
`k :: idx` is the result of the slice assignment for example `k` over the
constant-filled base. -/
def PaddedBatch.pad (sequences : List NDArray) (constant_value : Int) : NDArray :=
  { shape := sequences.length :: NDArray.maxShape (sequences.map (·.shape))
    data := fun idx =>
      match idx with
      | [] => constant_value
      | k :: sub =>
        match sequences[k]? with
        | some seq => NDArray.assignSlice (fun _ => constant_value) seq sub
        | none => constant_value }

/-- Error kinds raised by the record-source datasets: `IndexError(index)`
for an out-of-range access, and a propagated deserialization failure for
an undecodable stored record. -/
inductive DsError where
  | indexError (index : Int)
  | decodeError
deriving DecidableEq, Repr

/-- One parsed fasta record (what `SeqIO` yields): an identifier and a
residue sequence. -/
structure FastaRecord where
  id : String
  seq : String
deriving DecidableEq, Repr

/-- The item dictionary returned by the record-source datasets:
`{id, primary, protein_length}`. -/
structure Item where
  id : String
  primary : String
  protein_length : Nat
deriving DecidableEq, Repr

/-- `datasets.py` lines 74-77: the item built from a fasta record. -/
def FastaRecord.toItem (r : FastaRecord) : Item :=
  { id := r.id, primary := r.seq, protein_length := r.seq.length }

/-- The state `FastaDataset.__init__` leaves behind: the in-memory flag
(possibly upgraded), the eager cache when in memory, the underlying index
(`_records`/`_keys`) for lazy reads, and the record count. -/
structure FastaDataset where
  in_memory : Bool
  cache : Option (List FastaRecord)
  records : List FastaRecord
  num_examples : Nat

/-- `FastaDataset.__init__` (lines 29-57), with the parsed file contents
as input (the file-existence check is outside this model's scope): with
`in_memory` the whole file is cached eagerly; without it, if the detected
record count is below 10000 the constructor silently switches to eager
in-memory mode, and only otherwise keeps the lazy index. -/
def FastaDataset.init (fileRecords : List FastaRecord) (in_memory : Bool) : FastaDataset :=
  if in_memory then
    { in_memory := true, cache := some fileRecords, records := fileRecords
      num_examples := fileRecords.length }
  else if fileRecords.length < 10000 then
    { in_memory := true, cache := some fileRecords, records := fileRecords
      num_examples := fileRecords.length }
  else
    { in_memory := false, cache := none, records := fileRecords
      num_examples := fileRecords.length }

/-- `FastaDataset.__getitem__` (lines 62-77): bounds check raising
`IndexError(index)`, then either a cache hit (the fasta caches are fully
populated at construction, so the `is not None` test on line 66 holds
whenever `_in_memory` does) or a fresh read through the index.  The
returned flag records whether a fresh read of the underlying store was
performed. -/
def FastaDataset.getItem (d : FastaDataset) (index : Int) : Except DsError (Item × Bool) :=
  if 0 ≤ index ∧ index < (d.num_examples : Int) then
    if d.in_memory then
      Except.ok ((((d.cache.getD []).getD index.toNat ⟨"", ""⟩).toItem), false)
    else
      Except.ok ((d.records.getD index.toNat ⟨"", ""⟩).toItem, true)
  else
    Except.error (DsError.indexError index)

/-- The state of an open `LMDBDataset`: the record count read once from
the reserved `num_examples` key, and the store itself as a partial map
from integer index to a decoded item (`none` models an absent or
undecodable record, where `pkl.loads` would fail). -/
structure LMDBDataset (α : Type) where
  num_examples : Nat
  store : Nat → Option α

/-- `LMDBDataset.__getitem__` (lines 113-124), without the in-memory
cache (not exercised by any claim): bounds check raising
`IndexError(index)`, then a read-only transaction fetching and decoding
record `str(index)`; a failed decode propagates unmodified. -/
def LMDBDataset.getItem {α : Type} (d : LMDBDataset α) (index : Int) : Except DsError α :=
  if 0 ≤ index ∧ index < (d.num_examples : Int) then
    match d.store index.toNat with
    | some item => Except.ok item
    | none => Except.error DsError.decodeError
  else
    Except.error (DsError.indexError index)

/-- Errors raised by task-dataset construction: the `ValueError` for an
unrecognized mode, and the `FileNotFoundError` from file resolution. -/
inductive InitError where
  | valueError (msg : String)
  | fileNotFound (path : String)
deriving DecidableEq, Repr

/-- `TAPEDataset.__init__` file resolution (lines 166-170): accept
`data_file` as given if it exists, else relative to `data_path`, else
raise `FileNotFoundError` naming the joined path.  `exists` is the
file-system oracle. -/
def TAPEDataset.resolveFile (fileExists : String → Bool) (data_path data_file : String) :
    Except InitError String :=
  if fileExists data_file then Except.ok data_file
  else if fileExists (data_path ++ "/" ++ data_file) then
    Except.ok (data_path ++ "/" ++ data_file)
  else Except.error (InitError.fileNotFound (data_path ++ "/" ++ data_file))

/-- The `ValueError` message of `PfamDataset.__init__` (lines 223-225),
with the f-string interpolation carried out. -/
def PfamDataset.modeMsg (mode : String) : String :=
  "Unrecognized mode: " ++ mode ++ ". " ++
    "Must be one of ['train', 'valid', 'holdout']"

/-- `PfamDataset.__init__` (lines 216-231): validate `mode` against
{train, valid, holdout} before anything else, then form
`pfam/pfam_<mode>.lmdb` and delegate to the `TAPEDataset` constructor
(whose file access is modelled by `resolveFile`). -/
def PfamDataset.init (fileExists : String → Bool) (data_path mode : String) :
    Except InitError String :=
  if mode = "train" ∨ mode = "valid" ∨ mode = "holdout" then
    TAPEDataset.resolveFile fileExists data_path ("pfam/pfam_" ++ mode ++ ".lmdb")
  else Except.error (InitError.valueError (PfamDataset.modeMsg mode))

/-- The `ValueError` message of `RemoteHomologyDataset.__init__`
(lines 377-379), with the f-string interpolation carried out. -/
def RemoteHomologyDataset.modeMsg (mode : String) : String :=
  "Unrecognized mode: " ++ mode ++ ". Must be one of " ++
    "['train', 'valid', 'test_fold_holdout', " ++
    "'test_family_holdout', 'test_superfamily_holdout']"

/-- `RemoteHomologyDataset.__init__` (lines 369-384): validate `mode`
against its five-element set before anything else, then form
`remote_homology/remote_homology_<mode>.lmdb` and delegate to the
`TAPEDataset` constructor. -/
def RemoteHomologyDataset.init (fileExists : String → Bool) (data_path mode : String) :
    Except InitError String :=
  if mode = "train" ∨ mode = "valid" ∨ mode = "test_fold_holdout" ∨
      mode = "test_family_holdout" ∨ mode = "test_superfamily_holdout" then
    TAPEDataset.resolveFile fileExists data_path
      ("remote_homology/remote_homology_" ++ mode ++ ".lmdb")
  else Except.error (InitError.valueError (RemoteHomologyDataset.modeMsg mode))

/-- The class-count selector of `SecondaryStructureDataset` (`num_classes`,
3 or 8): the record field `ss{num_classes}` exists only for these two
values. -/
inductive NumClasses where
  | three
  | eight
deriving DecidableEq, Repr

/-- A secondary-structure record: the primary sequence plus the
per-residue 3-class and 8-class label arrays. -/
structure SSRecord where
  primary : String
  ss3 : List Int
  ss8 : List Int

/-- The lookup `item[f'ss{self._num_classes}']` (line 474). -/
def SSRecord.ssLabels (item : SSRecord) : NumClasses → List Int
  | NumClasses.three => item.ss3
  | NumClasses.eight => item.ss8

/-- `SecondaryStructureDataset.__getitem__` (lines 470-486): labels are
the selected per-residue class labels padded with one -1 at each end (for
the cls/sep positions); with a BPE tokenizer, additionally the character
lengths of the non-boundary tokens (`tokens[1:-1]`), the first
decremented by one (`token_lengths[0] -= 1`), padded with 1 at both ends.
With an empty interior token list that decrement indexes an empty array
and the call raises, modelled by `none`; any other tokenizer yields no
token-length component. -/
def SecondaryStructureDataset.getItem (tk : Tokenizer) (nc : NumClasses) (item : SSRecord) :
    Option (List Nat × List Int × List Int × Option (List Int)) :=
  let tokens := TAPEDataset.tokensOf tk item.primary
  let attention_mask : List Int := List.replicate tokens.length 1
  let labels := [-1] ++ item.ssLabels nc ++ [-1]
  let token_ids := tk.convert_tokens_to_ids tokens
  if tk.isBPE then
    match ((tokens.drop 1).dropLast).map (fun t => (t.length : Int)) with
    | [] => none
    | l0 :: rest => some (token_ids, attention_mask, labels,
        some ([1] ++ ((l0 - 1) :: rest) ++ [1]))
  else
    some (token_ids, attention_mask, labels, none)

/-- Squared Euclidean distance is symmetric. -/
theorem sqdist_comm (p q : ℚ × ℚ × ℚ) : sqdist p q = sqdist q p := by
  unfold sqdist; ring

/-- Squared Euclidean distance of a point to itself is zero. -/
theorem sqdist_self (p : ℚ × ℚ × ℚ) : sqdist p p = 0 := by
  unfold sqdist; ring

/-- C1: for a contact-prediction record with an N-residue tertiary array
and an N-length validity mask, the contact map is symmetric, an entry is
-1 exactly when the mask is false at its row or column index, and every
other entry is 1 when the (squared) Euclidean distance is below the
threshold and 0 otherwise. -/
theorem ProteinnetDataset.contactMap_spec (tertiary : List (ℚ × ℚ × ℚ))
    (valid_mask : List Bool) (i j : Nat) (hlen : valid_mask.length = tertiary.length)
    (hi : i < tertiary.length) (hj : j < tertiary.length) :
    ProteinnetDataset.contactMap tertiary valid_mask i j =
      ProteinnetDataset.contactMap tertiary valid_mask j i ∧
    (ProteinnetDataset.contactMap tertiary valid_mask i j = -1 ↔
      (valid_mask.getD i false = false ∨ valid_mask.getD j false = false)) ∧
    (valid_mask.getD i false = true → valid_mask.getD j false = true →
      ProteinnetDataset.contactMap tertiary valid_mask i j =
        if sqdist (tertiary.getD i (0, 0, 0)) (tertiary.getD j (0, 0, 0)) < 64
          then 1 else 0) := by
  refine ⟨?_, ?_, ?_⟩
  · unfold ProteinnetDataset.contactMap ProteinnetDataset.binaryContact
    rw [Bool.and_comm, sqdist_comm]
  · unfold ProteinnetDataset.contactMap ProteinnetDataset.binaryContact
    cases hvi : valid_mask.getD i false <;> cases hvj : valid_mask.getD j false <;>
      simp <;> split <;> simp
  · intro hvi hvj
    unfold ProteinnetDataset.contactMap
    rw [hvi, hvj]
    rfl

/-- C1 witness: the spec's scenario, three residues at x-coordinates 0, 1
and 10, all valid: entries (0,1) and (1,0) are contacts, (0,2) is not,
and the map is symmetric. -/
theorem ProteinnetDataset.contactMap_spec_witness :
    ProteinnetDataset.contactMap [(0, 0, 0), (1, 0, 0), (10, 0, 0)] [true, true, true] 0 1 =
      ProteinnetDataset.contactMap [(0, 0, 0), (1, 0, 0), (10, 0, 0)] [true, true, true] 1 0 ∧
    (ProteinnetDataset.contactMap [(0, 0, 0), (1, 0, 0), (10, 0, 0)] [true, true, true] 0 1 = -1 ↔
      ([true, true, true].getD 0 false = false ∨ [true, true, true].getD 1 false = false)) ∧
    ProteinnetDataset.contactMap [(0, 0, 0), (1, 0, 0), (10, 0, 0)] [true, true, true] 0 1 = 1 ∧
    ProteinnetDataset.contactMap [(0, 0, 0), (1, 0, 0), (10, 0, 0)] [true, true, true] 0 2 = 0 := by
  have h := ProteinnetDataset.contactMap_spec [(0, 0, 0), (1, 0, 0), (10, 0, 0)]
    [true, true, true] 0 1 (by decide) (by decide) (by decide)
  refine ⟨h.1, h.2.1, ?_, ?_⟩
  · rw [h.2.2 (by decide) (by decide)]
    norm_num [sqdist, List.getD]
  · have h2 := ProteinnetDataset.contactMap_spec [(0, 0, 0), (1, 0, 0), (10, 0, 0)]
      [true, true, true] 0 2 (by decide) (by decide) (by decide)
    rw [h2.2.2 (by decide) (by decide)]
    norm_num [sqdist, List.getD]

/-- C10: every diagonal entry of the contact map is 1 when the residue is
valid and -1 when it is invalid; a self-pair is never labeled 0 (its
distance to itself is 0, below the threshold). -/
theorem ProteinnetDataset.contactMap_diag (tertiary : List (ℚ × ℚ × ℚ))
    (valid_mask : List Bool) (i : Nat) (hi : i < tertiary.length) :
    ProteinnetDataset.contactMap tertiary valid_mask i i =
      (if valid_mask.getD i false then 1 else -1) ∧
    ProteinnetDataset.contactMap tertiary valid_mask i i ≠ 0 := by
  have hbin : ProteinnetDataset.binaryContact tertiary i i = 1 := by
    unfold ProteinnetDataset.binaryContact
    rw [sqdist_self]
    norm_num
  unfold ProteinnetDataset.contactMap
  cases hv : valid_mask.getD i false <;> simp [hbin]

/-- C10 witness: diagonal entries at a valid and at an invalid residue. -/
theorem ProteinnetDataset.contactMap_diag_witness :
    ProteinnetDataset.contactMap [(0, 0, 0), (1, 0, 0)] [true, false] 0 0 =
      (if [true, false].getD 0 false then 1 else -1) ∧
    ProteinnetDataset.contactMap [(0, 0, 0), (1, 0, 0)] [true, false] 0 0 ≠ 0 ∧
    ProteinnetDataset.contactMap [(0, 0, 0), (1, 0, 0)] [true, false] 1 1 = -1 := by
  have h0 := ProteinnetDataset.contactMap_diag [(0, 0, 0), (1, 0, 0)] [true, false] 0
    (by decide)
  have h1 := ProteinnetDataset.contactMap_diag [(0, 0, 0), (1, 0, 0)] [true, false] 1
    (by decide)
  exact ⟨h0.1, h0.2, by rw [h1.1]; decide⟩

/-- A concrete character-level tokenizer used to instantiate theorems on
sample inputs: one token per residue character. -/
def charTokenizer : Tokenizer :=
  { tokenize := fun s => s.data.map Char.toString
    convert_token_to_id := fun t => t.length
    convert_id_to_token := fun _ => "A"
    cls_token := "<cls>"
    sep_token := "<sep>"
    mask_token := "<mask>"
    vocab_size := 30
    isBPE := false }

/-- C4: for a tokenizer that emits one token per residue, `get(index)` on
a record whose primary sequence has length L yields a token sequence of
length L+2 beginning with the cls token and ending with the sep token,
and an all-ones attention mask of length L+2 (for either token
representation, strings or ids). -/
theorem TAPEDataset.getItem_shape (tk : Tokenizer) (convertToIds : Bool) (primary : String)
    (h : (tk.tokenize primary).length = primary.length) :
    (TAPEDataset.getItem tk convertToIds primary).1.length = primary.length + 2 ∧
    (TAPEDataset.tokensOf tk primary).head? = some tk.cls_token ∧
    (TAPEDataset.tokensOf tk primary).getLast? = some tk.sep_token ∧
    (TAPEDataset.getItem tk convertToIds primary).2 =
      List.replicate (primary.length + 2) 1 := by
  have hlen : (TAPEDataset.tokensOf tk primary).length = primary.length + 2 := by
    simp [TAPEDataset.tokensOf, h]
  have hout : (TAPEDataset.getItem tk convertToIds primary).1.length = primary.length + 2 := by
    cases convertToIds <;>
      simp [TAPEDataset.getItem, TokensOrIds.length, Tokenizer.convert_tokens_to_ids, hlen]
  refine ⟨hout, ?_, ?_, ?_⟩
  · simp [TAPEDataset.tokensOf]
  · show ([tk.cls_token] ++ tk.tokenize primary ++ [tk.sep_token]).getLast? = some tk.sep_token
    rw [List.getLast?_concat]
  · have hmask : (TAPEDataset.getItem tk convertToIds primary).2 =
        List.replicate ((TAPEDataset.getItem tk convertToIds primary).1.length) 1 := rfl
    rw [hmask, hout]

/-- C4 witness: the character tokenizer on the two-residue sequence MV
yields 4 tokens, boundary tokens at both ends, and an all-ones mask of
length 4. -/
theorem TAPEDataset.getItem_shape_witness :
    (charTokenizer.tokenize "MV").length = "MV".length ∧
    (TAPEDataset.getItem charTokenizer true "MV").1.length = "MV".length + 2 ∧
    (TAPEDataset.tokensOf charTokenizer "MV").head? = some "<cls>" ∧
    (TAPEDataset.tokensOf charTokenizer "MV").getLast? = some "<sep>" ∧
    (TAPEDataset.getItem charTokenizer true "MV").2 =
      List.replicate ("MV".length + 2) 1 := by
  have h := TAPEDataset.getItem_shape charTokenizer true "MV" (by decide)
  exact ⟨by decide, h.1, h.2.1, h.2.2.1, h.2.2.2⟩

/-- C6: for both record-source variants, an index outside `[0, length)`
yields exactly `IndexError(index)` naming the offending index, and an
in-range index never yields a bounds error (the lmdb variant may still
propagate a deserialization failure, which is not a bounds error). -/
theorem recordSource_getItem_bounds {α : Type} (d : LMDBDataset α) (fd : FastaDataset)
    (index : Int) :
    (¬ (0 ≤ index ∧ index < (d.num_examples : Int)) →
      d.getItem index = Except.error (DsError.indexError index)) ∧
    ((0 ≤ index ∧ index < (d.num_examples : Int)) →
      ∀ k, d.getItem index ≠ Except.error (DsError.indexError k)) ∧
    (¬ (0 ≤ index ∧ index < (fd.num_examples : Int)) →
      fd.getItem index = Except.error (DsError.indexError index)) ∧
    ((0 ≤ index ∧ index < (fd.num_examples : Int)) →
      ∀ k, fd.getItem index ≠ Except.error (DsError.indexError k)) := by
  refine ⟨?_, ?_, ?_, ?_⟩
  · intro h
    unfold LMDBDataset.getItem
    rw [if_neg h]
  · intro h k
    unfold LMDBDataset.getItem
    rw [if_pos h]
    cases d.store index.toNat <;> simp
  · intro h
    unfold FastaDataset.getItem
    rw [if_neg h]
  · intro h k
    unfold FastaDataset.getItem
    rw [if_pos h]
    cases fd.in_memory <;> simp

/-- A concrete two-record lmdb dataset used to instantiate bounds
theorems. -/
def lmdbSample : LMDBDataset Nat := { num_examples := 2, store := fun n => some n }

/-- A concrete one-record fasta dataset state used to instantiate bounds
theorems. -/
def fastaSample : FastaDataset :=
  { in_memory := true, cache := some [{ id := "a", seq := "MV" }]
    records := [{ id := "a", seq := "MV" }], num_examples := 1 }

/-- C6 witness: index 5 is out of range for both sample datasets and
fails with `IndexError(5)`; index 0 is in range for both and is not a
bounds error. -/
theorem recordSource_getItem_bounds_witness :
    lmdbSample.getItem 5 = Except.error (DsError.indexError 5) ∧
    (∀ k, lmdbSample.getItem 0 ≠ Except.error (DsError.indexError k)) ∧
    fastaSample.getItem 5 = Except.error (DsError.indexError 5) ∧
    (∀ k, fastaSample.getItem 0 ≠ Except.error (DsError.indexError k)) :=
  ⟨(recordSource_getItem_bounds lmdbSample fastaSample 5).1 (by decide),
   (recordSource_getItem_bounds lmdbSample fastaSample 0).2.1 (by decide),
   (recordSource_getItem_bounds lmdbSample fastaSample 5).2.2.1 (by decide),
   (recordSource_getItem_bounds lmdbSample fastaSample 0).2.2.2 (by decide)⟩

/-- C7: an invalid mode makes task-dataset construction fail with the
`ValueError` whose message names the mode and lists the allowed set, and
the result does not depend on the file system (the check precedes any
file access, as the universal quantification over `fileExists` records);
a valid mode never produces a `ValueError`.  Stated for the Pfam and
remote-homology tasks. -/
theorem taskDataset_mode_validation (fileExists : String → Bool) (data_path mode : String) :
    (¬ (mode = "train" ∨ mode = "valid" ∨ mode = "holdout") →
      PfamDataset.init fileExists data_path mode =
        Except.error (InitError.valueError (PfamDataset.modeMsg mode)) ∧
      PfamDataset.modeMsg mode =
        "Unrecognized mode: " ++
          (mode ++ ". Must be one of ['train', 'valid', 'holdout']")) ∧
    ((mode = "train" ∨ mode = "valid" ∨ mode = "holdout") →
      ∀ m, PfamDataset.init fileExists data_path mode ≠
        Except.error (InitError.valueError m)) ∧
    (¬ (mode = "train" ∨ mode = "valid" ∨ mode = "test_fold_holdout" ∨
        mode = "test_family_holdout" ∨ mode = "test_superfamily_holdout") →
      RemoteHomologyDataset.init fileExists data_path mode =
        Except.error (InitError.valueError (RemoteHomologyDataset.modeMsg mode)) ∧
      RemoteHomologyDataset.modeMsg mode =
        "Unrecognized mode: " ++
          (mode ++ (". Must be one of " ++
            "['train', 'valid', 'test_fold_holdout', " ++
            "'test_family_holdout', 'test_superfamily_holdout']"))) ∧
    ((mode = "train" ∨ mode = "valid" ∨ mode = "test_fold_holdout" ∨
        mode = "test_family_holdout" ∨ mode = "test_superfamily_holdout") →
      ∀ m, RemoteHomologyDataset.init fileExists data_path mode ≠
        Except.error (InitError.valueError m)) := by
  refine ⟨?_, ?_, ?_, ?_⟩
  · intro h
    refine ⟨by unfold PfamDataset.init; rw [if_neg h], ?_⟩
    unfold PfamDataset.modeMsg
    rw [String.append_assoc, String.append_assoc]
    rfl
  · intro h m
    unfold PfamDataset.init
    rw [if_pos h]
    unfold TAPEDataset.resolveFile
    split
    · simp
    · split <;> simp
  · intro h
    refine ⟨by unfold RemoteHomologyDataset.init; rw [if_neg h], ?_⟩
    unfold RemoteHomologyDataset.modeMsg
    rw [String.append_assoc, String.append_assoc, String.append_assoc]
    rfl
  · intro h m
    unfold RemoteHomologyDataset.init
    rw [if_pos h]
    unfold TAPEDataset.resolveFile
    split
    · simp
    · split <;> simp

/-- C7 witness: the invalid mode `test` for Pfam (valid for fluorescence,
not for Pfam) produces the value error naming it under a file system
where every path exists, while the valid mode `train` never produces a
value error. -/
theorem taskDataset_mode_validation_witness :
    PfamDataset.init (fun _ => true) "data" "test" =
      Except.error (InitError.valueError (PfamDataset.modeMsg "test")) ∧
    PfamDataset.modeMsg "test" =
      "Unrecognized mode: " ++
        ("test" ++ ". Must be one of ['train', 'valid', 'holdout']") ∧
    (∀ m, PfamDataset.init (fun _ => true) "data" "train" ≠
      Except.error (InitError.valueError m)) ∧
    RemoteHomologyDataset.init (fun _ => true) "data" "test" =
      Except.error (InitError.valueError (RemoteHomologyDataset.modeMsg "test")) ∧
    (∀ m, RemoteHomologyDataset.init (fun _ => true) "data" "train" ≠
      Except.error (InitError.valueError m)) := by
  have h1 := taskDataset_mode_validation (fun _ => true) "data" "test"
  have h2 := taskDataset_mode_validation (fun _ => true) "data" "train"
  exact ⟨(h1.1 (by decide)).1, (h1.1 (by decide)).2, h2.2.1 (by decide),
    (h1.2.2.1 (by decide)).1, h2.2.2.2 (by decide)⟩

/-- C8: constructed with `in_memory=False`, the fasta dataset silently
upgrades to eager in-memory mode exactly when the record count is below
10000: the whole file is cached at construction and every in-range get is
served from the cache (no fresh store read); at or above 10000 records it
stays lazy and every in-range get performs a fresh read. -/
theorem FastaDataset.init_threshold (fileRecords : List FastaRecord) :
    (fileRecords.length < 10000 →
      (FastaDataset.init fileRecords false).in_memory = true ∧
      (FastaDataset.init fileRecords false).cache = some fileRecords ∧
      ∀ i : Nat, i < fileRecords.length →
        (FastaDataset.init fileRecords false).getItem i =
          Except.ok ((fileRecords.getD i { id := "", seq := "" }).toItem, false)) ∧
    (10000 ≤ fileRecords.length →
      (FastaDataset.init fileRecords false).in_memory = false ∧
      (FastaDataset.init fileRecords false).cache = none ∧
      ∀ i : Nat, i < fileRecords.length →
        (FastaDataset.init fileRecords false).getItem i =
          Except.ok ((fileRecords.getD i { id := "", seq := "" }).toItem, true)) := by
  constructor
  · intro hlt
    have hinit : FastaDataset.init fileRecords false =
        { in_memory := true, cache := some fileRecords, records := fileRecords
          num_examples := fileRecords.length } := by
      unfold FastaDataset.init
      rw [if_neg (by simp), if_pos hlt]
    refine ⟨by rw [hinit], by rw [hinit], ?_⟩
    intro i hi
    rw [hinit]
    unfold FastaDataset.getItem
    rw [if_pos (by simp; omega)]
    simp
  · intro hge
    have hinit : FastaDataset.init fileRecords false =
        { in_memory := false, cache := none, records := fileRecords
          num_examples := fileRecords.length } := by
      unfold FastaDataset.init
      rw [if_neg (by simp), if_neg (by omega)]
    refine ⟨by rw [hinit], by rw [hinit], ?_⟩
    intro i hi
    rw [hinit]
    unfold FastaDataset.getItem
    rw [if_pos (by simp; omega)]
    simp

/-- C8 witness: a 1-record file constructed with `in_memory=False`
upgrades to in-memory and serves get(0) from the cache, while a
10000-record file stays lazy and get(0) performs a fresh read. -/
theorem FastaDataset.init_threshold_witness :
    ([({ id := "a", seq := "MV" } : FastaRecord)].length < 10000 ∧
     (FastaDataset.init [{ id := "a", seq := "MV" }] false).in_memory = true ∧
     (FastaDataset.init [{ id := "a", seq := "MV" }] false).cache =
       some [{ id := "a", seq := "MV" }] ∧
     (FastaDataset.init [{ id := "a", seq := "MV" }] false).getItem 0 =
       Except.ok (({ id := "a", seq := "MV" } : FastaRecord).toItem, false)) ∧
    (10000 ≤ (List.replicate 10000 ({ id := "a", seq := "M" } : FastaRecord)).length ∧
     (FastaDataset.init (List.replicate 10000 { id := "a", seq := "M" }) false).in_memory =
       false ∧
     (FastaDataset.init (List.replicate 10000 { id := "a", seq := "M" }) false).getItem 0 =
       Except.ok (({ id := "a", seq := "M" } : FastaRecord).toItem, true)) := by
  have hsmall := (FastaDataset.init_threshold [{ id := "a", seq := "MV" }]).1 (by decide)
  have hlen : 10000 ≤ (List.replicate 10000 ({ id := "a", seq := "M" } : FastaRecord)).length :=
    le_of_eq (List.length_replicate 10000 _).symm
  have hbig := (FastaDataset.init_threshold
    (List.replicate 10000 { id := "a", seq := "M" })).2 hlen
  refine ⟨⟨by decide, hsmall.1, hsmall.2.1, ?_⟩, ⟨hlen, hbig.1, ?_⟩⟩
  · exact hsmall.2.2 0 (by decide)
  · exact hbig.2.2 0 (lt_of_lt_of_le (by norm_num) hlen)

/-- Pointwise description of the masking loop: the output at position `i`
is the single-position rule applied to token `i` with the draws at index
`start + i`. -/
theorem PfamDataset.bertMaskFrom_getD (tk : Tokenizer) (r : Nat → ℚ) (rid : Nat → Nat) :
    ∀ (tokens : List String) (start i : Nat), i < tokens.length →
      (PfamDataset.bertMaskFrom tk r rid start tokens).1.getD i "" =
        (PfamDataset.bertMaskOne tk (tokens.getD i "") (r (start + i)) (rid (start + i))).1 ∧
      (PfamDataset.bertMaskFrom tk r rid start tokens).2.getD i 0 =
        (PfamDataset.bertMaskOne tk (tokens.getD i "") (r (start + i)) (rid (start + i))).2 := by
  intro tokens
  induction tokens with
  | nil => intro start i hi; simp at hi
  | cons t ts ih =>
    intro start i hi
    cases i with
    | zero =>
      simp [PfamDataset.bertMaskFrom]
    | succ j =>
      have hj : j < ts.length := by simpa using hi
      have := ih (start + 1) j hj
      have harith : start + 1 + j = start + (j + 1) := by omega
      rw [harith] at this
      simpa [PfamDataset.bertMaskFrom] using this

/-- C3: the per-position law of the Pfam masking procedure.  With draw
`r i` at position `i`: at or above 0.15 the token is unchanged and the
label stays -1; below 0.15 the label becomes the original token's id and,
with the renormalized draw, the token becomes the mask token (below 0.8),
the vocabulary token of the position's `randint` draw (in [0.8, 0.9)), or
stays unchanged (at or above 0.9). -/
theorem PfamDataset.applyBertMask_law (tk : Tokenizer) (tokens : List String)
    (r : Nat → ℚ) (rid : Nat → Nat) (i : Nat) (hi : i < tokens.length) :
    (15 / 100 ≤ r i →
      (PfamDataset.applyBertMask tk tokens r rid).1.getD i "" = tokens.getD i "" ∧
      (PfamDataset.applyBertMask tk tokens r rid).2.getD i 0 = -1) ∧
    (r i < 15 / 100 →
      (PfamDataset.applyBertMask tk tokens r rid).2.getD i 0 =
        (tk.convert_token_to_id (tokens.getD i "") : Int) ∧
      (r i / (15 / 100) < 8 / 10 →
        (PfamDataset.applyBertMask tk tokens r rid).1.getD i "" = tk.mask_token) ∧
      (8 / 10 ≤ r i / (15 / 100) → r i / (15 / 100) < 9 / 10 →
        (PfamDataset.applyBertMask tk tokens r rid).1.getD i "" =
          tk.convert_id_to_token (rid i)) ∧
      (9 / 10 ≤ r i / (15 / 100) →
        (PfamDataset.applyBertMask tk tokens r rid).1.getD i "" = tokens.getD i "")) := by
  have hpt := PfamDataset.bertMaskFrom_getD tk r rid tokens 0 i hi
  rw [Nat.zero_add] at hpt
  unfold PfamDataset.applyBertMask
  rw [hpt.1, hpt.2]
  unfold PfamDataset.bertMaskOne
  constructor
  · intro hge
    rw [if_neg (not_lt.mpr hge)]
    exact ⟨rfl, rfl⟩
  · intro hlt
    rw [if_pos hlt]
    refine ⟨rfl, ?_, ?_, ?_⟩
    · intro h8
      simp only [if_pos h8]
    · intro h8 h9
      simp only [if_neg (not_lt.mpr h8), if_pos h9]
    · intro h9
      simp only [if_neg (not_lt.mpr (le_trans (by norm_num : (8 : ℚ) / 10 ≤ 9 / 10) h9)),
        if_neg (not_lt.mpr h9)]

/-- A sample draw stream for the masking law: position 1 draws 0.1
(below the 0.15 threshold, renormalizing to 2/3), every other position
draws 0.5. -/
def drawsSample : Nat → ℚ := fun i => if i = 1 then 1 / 10 else 1 / 2

/-- C3 witness: on `[<cls>, M, V, <sep>]` with the sample draws, position
1 (draw 0.1) gets label id("M") and is replaced by the mask token, while
position 0 (draw 0.5) is unchanged with label -1. -/
theorem PfamDataset.applyBertMask_law_witness :
    (PfamDataset.applyBertMask charTokenizer ["<cls>", "M", "V", "<sep>"]
        drawsSample (fun _ => 3)).2.getD 1 0 =
      (charTokenizer.convert_token_to_id "M" : Int) ∧
    (PfamDataset.applyBertMask charTokenizer ["<cls>", "M", "V", "<sep>"]
        drawsSample (fun _ => 3)).1.getD 1 "" = charTokenizer.mask_token ∧
    (PfamDataset.applyBertMask charTokenizer ["<cls>", "M", "V", "<sep>"]
        drawsSample (fun _ => 3)).1.getD 0 "" = "<cls>" ∧
    (PfamDataset.applyBertMask charTokenizer ["<cls>", "M", "V", "<sep>"]
        drawsSample (fun _ => 3)).2.getD 0 0 = -1 := by
  have h1 := PfamDataset.applyBertMask_law charTokenizer ["<cls>", "M", "V", "<sep>"]
    drawsSample (fun _ => 3) 1 (by decide)
  have h0 := PfamDataset.applyBertMask_law charTokenizer ["<cls>", "M", "V", "<sep>"]
    drawsSample (fun _ => 3) 0 (by decide)
  have hr1 : drawsSample 1 < 15 / 100 := by norm_num [drawsSample]
  have hr0 : 15 / 100 ≤ drawsSample 0 := by norm_num [drawsSample]
  have hrenorm : drawsSample 1 / (15 / 100) < 8 / 10 := by norm_num [drawsSample]
  exact ⟨(h1.2 hr1).1, (h1.2 hr1).2.1 hrenorm, (h0.1 hr0).1, (h0.1 hr0).2⟩

/-- C2: boundary positions are not skipped by the masking procedure: at a
position holding the cls or sep token whose draw falls below 0.15, the
label is set to that boundary token's id (hence is not the default -1),
the output is the same single-position rule applied at every position,
and in particular a renormalized draw below 0.8 replaces the boundary
token by the mask token. -/
theorem PfamDataset.boundary_not_skipped (tk : Tokenizer) (tokens : List String)
    (r : Nat → ℚ) (rid : Nat → Nat) (i : Nat) (hi : i < tokens.length)
    (hb : tokens.getD i "" = tk.cls_token ∨ tokens.getD i "" = tk.sep_token)
    (hr : r i < 15 / 100) :
    (PfamDataset.applyBertMask tk tokens r rid).2.getD i 0 =
      (tk.convert_token_to_id (tokens.getD i "") : Int) ∧
    (PfamDataset.applyBertMask tk tokens r rid).2.getD i 0 ≠ -1 ∧
    (PfamDataset.applyBertMask tk tokens r rid).1.getD i "" =
      (PfamDataset.bertMaskOne tk (tokens.getD i "") (r i) (rid i)).1 ∧
    (r i / (15 / 100) < 8 / 10 →
      (PfamDataset.applyBertMask tk tokens r rid).1.getD i "" = tk.mask_token) := by
  have hpt := PfamDataset.bertMaskFrom_getD tk r rid tokens 0 i hi
  rw [Nat.zero_add] at hpt
  unfold PfamDataset.applyBertMask
  rw [hpt.1, hpt.2]
  have hlabel : (PfamDataset.bertMaskOne tk (tokens.getD i "") (r i) (rid i)).2 =
      (tk.convert_token_to_id (tokens.getD i "") : Int) := by
    unfold PfamDataset.bertMaskOne
    rw [if_pos hr]
  refine ⟨hlabel, ?_, rfl, ?_⟩
  · rw [hlabel]
    have hnn : (0 : Int) ≤ (tk.convert_token_to_id (tokens.getD i "") : Int) :=
      Int.natCast_nonneg _
    omega
  · intro h8
    unfold PfamDataset.bertMaskOne
    rw [if_pos hr]
    simp only [if_pos h8]

/-- C2 witness: position 0 holds the cls token and draws 0.1: its label
becomes id(cls) = 5 (not -1) and the cls token itself is replaced by the
mask token. -/
theorem PfamDataset.boundary_not_skipped_witness :
    (PfamDataset.applyBertMask charTokenizer ["<cls>", "M", "V", "<sep>"]
        (fun _ => 1 / 10) (fun _ => 3)).2.getD 0 0 =
      (charTokenizer.convert_token_to_id "<cls>" : Int) ∧
    (PfamDataset.applyBertMask charTokenizer ["<cls>", "M", "V", "<sep>"]
        (fun _ => 1 / 10) (fun _ => 3)).2.getD 0 0 ≠ -1 ∧
    (PfamDataset.applyBertMask charTokenizer ["<cls>", "M", "V", "<sep>"]
        (fun _ => 1 / 10) (fun _ => 3)).1.getD 0 "" = "<mask>" := by
  have h := PfamDataset.boundary_not_skipped charTokenizer ["<cls>", "M", "V", "<sep>"]
    (fun _ => 1 / 10) (fun _ => 3) 0 (by decide) (Or.inl rfl) (by norm_num)
  exact ⟨h.1, h.2.1, h.2.2.2 (by norm_num)⟩

/-- Entrywise value of the element-wise maximum of two equal-length shape
vectors. -/
theorem getD_zipWith_max : ∀ (a b : List Nat) (j : Nat), j < a.length →
    a.length = b.length →
    (List.zipWith max a b).getD j 0 = max (a.getD j 0) (b.getD j 0) := by
  intro a
  induction a with
  | nil => intro b j hj _; simp at hj
  | cons x xs ih =>
    intro b j hj hlen
    cases b with
    | nil => simp at hlen
    | cons y ys =>
      cases j with
      | zero => simp
      | succ m =>
        have hm : m < xs.length := by simpa using hj
        have hl : xs.length = ys.length := by simpa using hlen
        simpa using ih ys m hm hl

/-- The fold of element-wise maxima over same-rank shape vectors: its
length is the common rank, and its entry at `j` is the running maximum of
the entries at `j`. -/
theorem maxShape_foldl_spec : ∀ (rest : List (List Nat)) (s : List Nat) (rank : Nat),
    s.length = rank → (∀ t ∈ rest, t.length = rank) →
    (rest.foldl (fun acc t => List.zipWith max acc t) s).length = rank ∧
    ∀ j, j < rank →
      (rest.foldl (fun acc t => List.zipWith max acc t) s).getD j 0 =
        (rest.map (fun t => t.getD j 0)).foldl max (s.getD j 0) := by
  intro rest
  induction rest with
  | nil => intro s rank hs _; exact ⟨hs, fun j _ => rfl⟩
  | cons t ts ih =>
    intro s rank hs hmem
    have ht : t.length = rank := hmem t (List.mem_cons_self t ts)
    have hzip : (List.zipWith max s t).length = rank := by
      rw [List.length_zipWith, hs, ht, Nat.min_self]
    have hts : ∀ u ∈ ts, u.length = rank := fun u hu => hmem u (List.mem_cons_of_mem t hu)
    have hih := ih (List.zipWith max s t) rank hzip hts
    refine ⟨hih.1, ?_⟩
    intro j hj
    have hgd : (List.zipWith max s t).getD j 0 = max (s.getD j 0) (t.getD j 0) :=
      getD_zipWith_max s t j (by omega) (by rw [hs, ht])
    calc ((t :: ts).foldl (fun acc u => List.zipWith max acc u) s).getD j 0
        = (ts.foldl (fun acc u => List.zipWith max acc u) (List.zipWith max s t)).getD j 0 :=
          rfl
      _ = (ts.map (fun u => u.getD j 0)).foldl max ((List.zipWith max s t).getD j 0) :=
          hih.2 j hj
      _ = (ts.map (fun u => u.getD j 0)).foldl max (max (s.getD j 0) (t.getD j 0)) := by
          rw [hgd]
      _ = ((t :: ts).map (fun u => u.getD j 0)).foldl max (s.getD j 0) := rfl

/-- C5: for a nonempty list of same-rank arrays, the padded buffer has
shape `[batch_size, *max_shape]` with `max_shape` the element-wise
maximum of the input shapes; each input array is copied unchanged into
the leading sub-region of its slice, and every cell outside an input's
sub-region holds the fill constant. -/
theorem PaddedBatch.pad_spec (sequences : List NDArray) (c : Int) (rank : Nat)
    (hne : sequences ≠ [])
    (hrank : ∀ s ∈ sequences, s.shape.length = rank) :
    (PaddedBatch.pad sequences c).shape.length = rank + 1 ∧
    (PaddedBatch.pad sequences c).shape.getD 0 0 = sequences.length ∧
    (∀ j, j < rank →
      (PaddedBatch.pad sequences c).shape.getD (j + 1) 0 =
        (sequences.map (fun s => s.shape.getD j 0)).foldl max 0) ∧
    (∀ k, k < sequences.length → ∀ idx,
      NDArray.inBounds (sequences.getD k ⟨[], fun _ => 0⟩).shape idx = true →
      (PaddedBatch.pad sequences c).data (k :: idx) =
        (sequences.getD k ⟨[], fun _ => 0⟩).data idx) ∧
    (∀ k, k < sequences.length → ∀ idx,
      NDArray.inBounds (sequences.getD k ⟨[], fun _ => 0⟩).shape idx = false →
      (PaddedBatch.pad sequences c).data (k :: idx) = c) := by
  obtain ⟨s, rest, rfl⟩ : ∃ s rest, sequences = s :: rest := by
    cases sequences with
    | nil => exact absurd rfl hne
    | cons s rest => exact ⟨s, rest, rfl⟩
  have hmap : (s :: rest).map (·.shape) = s.shape :: rest.map (·.shape) := rfl
  have hmem : ∀ t ∈ rest.map (·.shape), t.length = rank := by
    intro t ht
    obtain ⟨u, hu, rfl⟩ := List.mem_map.mp ht
    exact hrank u (List.mem_cons_of_mem s hu)
  have hspec := maxShape_foldl_spec (rest.map (·.shape)) s.shape rank
    (hrank s (List.mem_cons_self s rest)) hmem
  refine ⟨?_, rfl, ?_, ?_, ?_⟩
  · show (NDArray.maxShape ((s :: rest).map (·.shape))).length + 1 = rank + 1
    rw [hmap]
    show (((rest.map (·.shape)).foldl (fun acc t => List.zipWith max acc t) s.shape)).length
      + 1 = rank + 1
    rw [hspec.1]
  · intro j hj
    show (NDArray.maxShape ((s :: rest).map (·.shape))).getD j 0 =
      ((s :: rest).map (fun u => u.shape.getD j 0)).foldl max 0
    rw [hmap]
    show ((rest.map (·.shape)).foldl (fun acc t => List.zipWith max acc t) s.shape).getD j 0 =
      ((s :: rest).map (fun u => u.shape.getD j 0)).foldl max 0
    rw [hspec.2 j hj]
    have h1 : (rest.map (·.shape)).map (fun t => t.getD j 0) =
        rest.map (fun u => u.shape.getD j 0) := by
      rw [List.map_map]
      rfl
    have h2 : ((s :: rest).map (fun u => u.shape.getD j 0)).foldl max 0 =
        (rest.map (fun u => u.shape.getD j 0)).foldl max (max 0 (s.shape.getD j 0)) := rfl
    rw [h1, h2, Nat.zero_max]
  · intro k hk idx hin
    have hkk : (s :: rest)[k]? = some ((s :: rest).getD k ⟨[], fun _ => 0⟩) := by
      rw [List.getElem?_eq_getElem hk]
      rw [List.getD_eq_getElem (s :: rest) _ hk]
    show (match (s :: rest)[k]? with
      | some seq => NDArray.assignSlice (fun _ => c) seq idx
      | none => c) = ((s :: rest).getD k ⟨[], fun _ => 0⟩).data idx
    rw [hkk]
    show NDArray.assignSlice (fun _ => c) ((s :: rest).getD k ⟨[], fun _ => 0⟩) idx =
      ((s :: rest).getD k ⟨[], fun _ => 0⟩).data idx
    unfold NDArray.assignSlice
    rw [hin]
    rfl
  · intro k hk idx hout
    have hkk : (s :: rest)[k]? = some ((s :: rest).getD k ⟨[], fun _ => 0⟩) := by
      rw [List.getElem?_eq_getElem hk]
      rw [List.getD_eq_getElem (s :: rest) _ hk]
    show (match (s :: rest)[k]? with
      | some seq => NDArray.assignSlice (fun _ => c) seq idx
      | none => c) = c
    rw [hkk]
    show NDArray.assignSlice (fun _ => c) ((s :: rest).getD k ⟨[], fun _ => 0⟩) idx = c
    unfold NDArray.assignSlice
    rw [hout]
    rfl

/-- A concrete batch of two rank-1 arrays (lengths 2 and 3, constant
contents 7 and 9) used to instantiate the padding theorem. -/
def padSamples : List NDArray :=
  [{ shape := [2], data := fun _ => 7 }, { shape := [3], data := fun _ => 9 }]

/-- C5 witness: padding the sample batch with fill -1 gives shape [2, 3],
copies the first array's cells, and fills the first slice's cell beyond
its length with -1. -/
theorem PaddedBatch.pad_spec_witness :
    (PaddedBatch.pad padSamples (-1)).shape.length = 2 ∧
    (PaddedBatch.pad padSamples (-1)).shape.getD 0 0 = 2 ∧
    (PaddedBatch.pad padSamples (-1)).shape.getD 1 0 = 3 ∧
    (PaddedBatch.pad padSamples (-1)).data [0, 0] = 7 ∧
    (PaddedBatch.pad padSamples (-1)).data [0, 2] = -1 := by
  have h := PaddedBatch.pad_spec padSamples (-1) 1 (by simp [padSamples])
    (by intro s hs; simp [padSamples] at hs; rcases hs with rfl | rfl <;> rfl)
  refine ⟨h.1, h.2.1, ?_, ?_, ?_⟩
  · rw [h.2.2.1 0 (by decide)]
    rfl
  · rw [h.2.2.2.1 0 (by decide) [0] (by rfl)]
    rfl
  · rw [h.2.2.2.2 0 (by decide) [2] (by rfl)]

/-- Entrywise value of the token-length map. -/
theorem getD_map_length : ∀ (l : List String) (j : Nat), j < l.length →
    (l.map (fun t => (t.length : Int))).getD j 0 = ((l.getD j "").length : Int) := by
  intro l
  induction l with
  | nil => intro j hj; simp at hj
  | cons x xs ih =>
    intro j hj
    cases j with
    | zero => rfl
    | succ m =>
      have hm : m < xs.length := by simpa using hj
      simpa using ih m hm

/-- The interior slice `tokens[1:-1]` of the boundary-wrapped token list
is the raw tokenization. -/
theorem tokensOf_interior (tk : Tokenizer) (primary : String) :
    ((TAPEDataset.tokensOf tk primary).drop 1).dropLast = tk.tokenize primary := by
  show ((tk.cls_token :: (tk.tokenize primary ++ [tk.sep_token])).drop 1).dropLast =
    tk.tokenize primary
  show (tk.tokenize primary ++ [tk.sep_token]).dropLast = tk.tokenize primary
  rw [List.dropLast_concat]

/-- C9: the secondary-structure item's label component is the selected
per-residue class labels padded with one -1 at each end; the token-length
component is present exactly for the BPE tokenizer, in which case its two
boundary entries are 1 and its interior entries are the character lengths
of the non-boundary tokens, the first decremented by one. -/
theorem SecondaryStructureDataset.getItem_spec (tk : Tokenizer) (nc : NumClasses)
    (item : SSRecord) (hne : tk.tokenize item.primary ≠ []) :
    ∃ token_ids attention labels tls,
      SecondaryStructureDataset.getItem tk nc item =
        some (token_ids, attention, labels, tls) ∧
      labels = [-1] ++ item.ssLabels nc ++ [-1] ∧
      (tk.isBPE = false → tls = none) ∧
      (tk.isBPE = true → ∃ tl, tls = some tl ∧
        tl.length = (tk.tokenize item.primary).length + 2 ∧
        tl.headD 0 = 1 ∧
        tl.getLast? = some 1 ∧
        ∀ j, j < (tk.tokenize item.primary).length →
          tl.getD (j + 1) 0 =
            (((tk.tokenize item.primary).getD j "").length : Int) -
              (if j = 0 then 1 else 0)) := by
  obtain ⟨m, ms, hmid⟩ := List.exists_cons_of_ne_nil hne
  have hint : ((TAPEDataset.tokensOf tk item.primary).drop 1).dropLast.map
      (fun t : String => (t.length : Int)) =
      ((m.length : Int)) :: ms.map (fun t : String => (t.length : Int)) := by
    rw [tokensOf_interior, hmid]
    rfl
  cases hbpe : tk.isBPE with
  | false =>
    refine ⟨tk.convert_tokens_to_ids (TAPEDataset.tokensOf tk item.primary),
      List.replicate (TAPEDataset.tokensOf tk item.primary).length 1,
      [-1] ++ item.ssLabels nc ++ [-1], none, ?_, rfl, fun _ => rfl,
      fun h => Bool.noConfusion h⟩
    unfold SecondaryStructureDataset.getItem
    rw [hbpe]
    rfl
  | true =>
    refine ⟨tk.convert_tokens_to_ids (TAPEDataset.tokensOf tk item.primary),
      List.replicate (TAPEDataset.tokensOf tk item.primary).length 1,
      [-1] ++ item.ssLabels nc ++ [-1],
      some ([1] ++ (((m.length : Int) - 1) ::
        ms.map (fun t : String => (t.length : Int))) ++ [1]),
      ?_, rfl, fun h => Bool.noConfusion h, ?_⟩
    · simp only [SecondaryStructureDataset.getItem, hbpe, if_pos]
      rw [hint]
    · intro _
      refine ⟨_, rfl, ?_, rfl, ?_, ?_⟩
      · rw [hmid]
        simp
      · show ((1 :: (((m.length : Int) - 1) ::
          ms.map (fun t : String => (t.length : Int)))) ++ [1]).getLast? = some (1 : Int)
        rw [List.getLast?_concat]
      · intro j hj
        rw [hmid] at hj ⊢
        cases j with
        | zero => rfl
        | succ jj =>
          have hjj : jj < ms.length := by simpa using hj
          show ((((m.length : Int) - 1) ::
            ms.map (fun t : String => (t.length : Int))) ++ [1]).getD (jj + 1) 0 = _
          have hlt : jj + 1 < (((m.length : Int) - 1) ::
              ms.map (fun t : String => (t.length : Int))).length := by
            simpa using hjj
          rw [List.getD_append _ _ _ _ hlt]
          show (ms.map (fun t : String => (t.length : Int))).getD jj 0 = _
          rw [getD_map_length ms jj hjj]
          simp

/-- The character tokenizer flagged as a BPE (subword) tokenizer, to
exercise the token-length branch. -/
def bpeTokenizer : Tokenizer := { charTokenizer with isBPE := true }

/-- A concrete secondary-structure record. -/
def ssSample : SSRecord := { primary := "MV", ss3 := [0, 1], ss8 := [2, 3] }

/-- C9 witness: the theorem instantiated at a BPE tokenizer and the
two-residue sample record. -/
theorem SecondaryStructureDataset.getItem_spec_witness :
    bpeTokenizer.tokenize "MV" ≠ [] ∧
    (∃ token_ids attention labels tls,
      SecondaryStructureDataset.getItem bpeTokenizer NumClasses.three ssSample =
        some (token_ids, attention, labels, tls) ∧
      labels = [-1] ++ ssSample.ssLabels NumClasses.three ++ [-1] ∧
      (bpeTokenizer.isBPE = false → tls = none) ∧
      (bpeTokenizer.isBPE = true → ∃ tl, tls = some tl ∧
        tl.length = (bpeTokenizer.tokenize ssSample.primary).length + 2 ∧
        tl.headD 0 = 1 ∧
        tl.getLast? = some 1 ∧
        ∀ j, j < (bpeTokenizer.tokenize ssSample.primary).length →
          tl.getD (j + 1) 0 =
            (((bpeTokenizer.tokenize ssSample.primary).getD j "").length : Int) -
              (if j = 0 then 1 else 0))) :=
  ⟨by decide,
   SecondaryStructureDataset.getItem_spec bpeTokenizer NumClasses.three ssSample (by decide)⟩
